import Mathlib

/-!
Verification of the github-analytics-mcp agent loop.

A shallow embedding, in Lean 4, of the core of the `github-analytics-mcp`
repository: the agentic tool-calling loop
(`src/github-analytics-mcp-host/src/host/host.py`), the connection manager
(`src/github-analytics-mcp-host/src/host/connection_manager.py`), and the
pieces of session initialization the specification's claims mention.

Modelling conventions:
* The Completion Engine (the `groq_client.chat.completions.create` call) is an
  external oracle; it is modelled by the sequence of assistant turns it returns,
  indexed by call ordinal (`engine : Nat → AssistantTurn`: the response to the
  i-th engine call of one `process_query` run).
* The Tool Provider is modelled by a `ToolEnv`: a pure decoding function for
  argument payloads (Python's `eval(tool_call.function.arguments)`) and a pure
  invocation function (`session.call_tool`), each returning `Except` to model
  raised exceptions.
* Python exceptions are modelled by `Except String`; duck-typed attribute
  presence (`hasattr`) by `Option`.
-/

namespace GithubAnalyticsMcp

/-- A tool call request emitted by the Completion Engine
(`tool_call` with `.id`, `.function.name`, `.function.arguments`). -/
structure ToolCall where
  id : String
  name : String
  arguments : String
deriving Repr, DecidableEq

/-- One assistant turn returned by the Completion Engine
(`response.choices[0].message`): optional content plus the list of tool
calls (Python `tool_calls` is `None` or a non-empty list; an empty list here
models both falsy cases, matching `if not assistant_message.tool_calls`). -/
structure AssistantTurn where
  content : Option String
  tool_calls : List ToolCall
deriving Repr, DecidableEq

/-- A transcript message, as appended to `messages` in
`_process_query_internal`. -/
inductive Message where
  | system (content : Option String)
  | user (content : String)
  | assistant (content : Option String) (tool_calls : List ToolCall)
  | tool (tool_call_id : String) (content : String)
deriving Repr, DecidableEq

/-- Decoded argument payload: a structured key→value mapping (the result of
Python's `eval` on the serialized arguments string). -/
def Args : Type := List (String × String)

instance : DecidableEq Args := by unfold Args; infer_instance

/-- One content item of a structured MCP tool result. `text = some t` models
an item with a `text` attribute (`hasattr(item, 'text')`); `none` models
image/resource items without one. -/
structure ContentItem where
  text : Option String
deriving Repr, DecidableEq

/-- A structured MCP tool result. `content = none` models a result object
without a `content` attribute; `toStr` models Python's `str(result)`
rendering of the whole result. -/
structure ToolResult where
  content : Option (List ContentItem)
  toStr : String
deriving Repr, DecidableEq

/-- The Tool Provider side of the loop: `decodeArgs` models
`eval(tool_call.function.arguments)` (raising on a malformed payload), and
`callTool` models `ConnectionManager.call_tool` → `session.call_tool`
(raising on provider-reported errors). -/
structure ToolEnv where
  decodeArgs : String → Except String Args
  callTool : String → Args → Except String ToolResult

/-- The text of the first content item that has a `text` attribute, if any
(the `for item in result.content: if hasattr(item, 'text'): return item.text`
scan). -/
def firstText : List ContentItem → Option String
  | [] => none
  | item :: rest =>
    match item.text with
    | some t => some t
    | none => firstText rest

/-- The host method `_extract_result_text`: if the result has a truthy `content`
list, return the text of its first item carrying a `text` attribute;
otherwise (no `content` attribute, empty content, or no textual item) fall
back to `str(result)`. -/
def extract_result_text (r : ToolResult) : String :=
  match r.content with
  | some items =>
    if items = [] then r.toStr
    else
      match firstText items with
      | some t => t
      | none => r.toStr
  | none => r.toStr

/-- The tool-result text produced for one tool call, when both the argument
decoding and the provider invocation succeed. -/
def toolResultText (env : ToolEnv) (tc : ToolCall) : Option String :=
  match env.decodeArgs tc.arguments with
  | .error _ => none
  | .ok args =>
    match env.callTool tc.name args with
    | .error _ => none
    | .ok r => some (extract_result_text r)

/-- The tool-result message appended for one successfully executed tool
call. -/
def toolResultMsg (env : ToolEnv) (tc : ToolCall) : Option Message :=
  (toolResultText env tc).map (fun t => Message.tool tc.id t)

/-- Accumulated run statistics of one `_process_query_internal` invocation:
the transcript (`messages`), the number of Completion Engine calls made, and
the tool calls actually dispatched to the provider, in dispatch order. -/
structure RunState where
  messages : List Message
  engineCalls : Nat
  dispatched : List ToolCall
deriving Repr, DecidableEq

/-- The way one `_process_query_internal` run ends: a Python `return` of
`assistant_message.content` (or of the fallback string), or an uncaught
exception propagating to the caller. -/
inductive RunOutcome where
  | returned (value : Option String)
  | raised (e : String)
deriving Repr, DecidableEq

/-- The fixed fallback message returned when the iteration budget is
exhausted (host.py line 181). -/
def fallbackMessage : String :=
  "I apologize, but I've reached my maximum number of analysis steps. Please try rephrasing your question or breaking it into smaller parts."

/-- The inner `for tool_call in assistant_message.tool_calls` loop: decode
the payload (`eval`), dispatch via `call_tool`, extract text, append the
tool-result message. Returns the extended transcript, the extended dispatch
log, and `some e` if an exception aborted the loop (a decode failure is
raised before the provider is contacted; an invocation failure is raised
after dispatch). -/
def runToolCalls (env : ToolEnv) : List ToolCall → List Message → List ToolCall →
    List Message × List ToolCall × Option String
  | [], msgs, dispatched => (msgs, dispatched, none)
  | tc :: rest, msgs, dispatched =>
    match env.decodeArgs tc.arguments with
    | .error e => (msgs, dispatched, some e)
    | .ok args =>
      match env.callTool tc.name args with
      | .error e => (msgs, dispatched ++ [tc], some e)
      | .ok r =>
        runToolCalls env rest
          (msgs ++ [Message.tool tc.id (extract_result_text r)])
          (dispatched ++ [tc])

/-- The body of `_process_query_internal`'s `for iteration in
range(settings.max_iterations)` loop, with `fuel` the number of remaining
iterations. Each iteration: call the engine, append the assistant turn
verbatim, return its content if it carries no tool calls, otherwise execute
the tool calls sequentially and continue; at `fuel = 0` return the fallback
message. -/
def loopAux (engine : Nat → AssistantTurn) (env : ToolEnv) :
    Nat → RunState → RunOutcome × RunState
  | 0, st => (RunOutcome.returned (some fallbackMessage), st)
  | fuel + 1, st =>
    let turn := engine st.engineCalls
    let st1 : RunState :=
      { st with
        messages := st.messages ++ [Message.assistant turn.content turn.tool_calls]
        engineCalls := st.engineCalls + 1 }
    if turn.tool_calls = [] then
      (RunOutcome.returned turn.content, st1)
    else
      match runToolCalls env turn.tool_calls st1.messages st1.dispatched with
      | (msgs, disp, some e) =>
        (RunOutcome.raised e, { st1 with messages := msgs, dispatched := disp })
      | (msgs, disp, none) =>
        loopAux engine env fuel { st1 with messages := msgs, dispatched := disp }

/-- The method `_process_query_internal`: seed the transcript with the system message
and the user query, then run the bounded agentic loop. -/
def process_query (engine : Nat → AssistantTurn) (env : ToolEnv)
    (maxIterations : Nat) (systemPrompt : Option String) (userQuery : String) :
    RunOutcome × RunState :=
  loopAux engine env maxIterations
    { messages := [Message.system systemPrompt, Message.user userQuery]
      engineCalls := 0
      dispatched := [] }

/-- The messages one successful tool-call round contributes to the
transcript: the assistant turn itself followed by one tool-result message
per call. -/
def roundMsgs (env : ToolEnv) (t : AssistantTurn) : List Message :=
  Message.assistant t.content t.tool_calls :: t.tool_calls.filterMap (toolResultMsg env)

/-- The transcript contribution of `n` consecutive successful tool-call
rounds, the first of which is the `c`-th engine call. -/
def roundsFrom (engine : Nat → AssistantTurn) (env : ToolEnv) : Nat → Nat → List Message
  | _, 0 => []
  | c, n + 1 => roundMsgs env (engine c) ++ roundsFrom engine env (c + 1) n

/-- The tool calls dispatched by `n` consecutive successful tool-call
rounds, the first of which is the `c`-th engine call. -/
def callsFrom (engine : Nat → AssistantTurn) : Nat → Nat → List ToolCall
  | _, 0 => []
  | c, n + 1 => (engine c).tool_calls ++ callsFrom engine (c + 1) n

/-!
The connection manager (`connection_manager.py`) and the host-level session
initialization (`MCPHost.initialize` in `host.py`).
-/

/-- A tool descriptor as cached in `ConnectionManager._tools`
(`tool.model_dump()`): name, description, input schema. -/
structure McpTool where
  name : String
  description : String
  inputSchema : String
deriving Repr, DecidableEq

/-- The `function` part of an OpenAI-format tool. -/
structure FunctionDef where
  name : String
  description : String
  parameters : String
deriving Repr, DecidableEq

/-- A tool in OpenAI/Groq function-calling format, as produced by
`MCPHost._convert_tool`. -/
structure OpenAITool where
  type : String
  function : FunctionDef
deriving Repr, DecidableEq

/-- The method `MCPHost._convert_tool`: map an MCP tool descriptor to the
OpenAI function-calling shape. -/
def convert_tool (t : McpTool) : OpenAITool :=
  { type := "function"
    function :=
      { name := t.name
        description := t.description
        parameters := t.inputSchema } }

/-- The mutable state of a `ConnectionManager`: `session` models
`self.session is not None`, `tools` models the cached `self._tools`,
`is_initialized` models `self._initialized`, and `stackOpen` models whether
the `AsyncExitStack` resources are still open. -/
structure ConnState where
  session : Bool
  tools : List McpTool
  is_initialized : Bool
  stackOpen : Bool
deriving Repr, DecidableEq

/-- A freshly constructed `ConnectionManager` (its `__init__`). -/
def ConnState.fresh : ConnState :=
  { session := false, tools := [], is_initialized := false, stackOpen := false }

/-- The Tool Provider as seen by the connection manager: the outcome of the
connection handshake, of `session.list_tools()`, of
`session.list_prompts()`, of `session.get_prompt(name, args)` (the text of
its first message), and of `session.call_tool(name, args)`. -/
structure ProviderEffects where
  connect : Except String Unit
  listTools : Except String (List McpTool)
  listPrompts : Except String (List String)
  getPrompt : String → Except String String
  invokeTool : String → Args → Except String ToolResult

/-- How many provider round trips a (host or connection level)
initialization performed, by operation. -/
structure EffectCount where
  connects : Nat
  listToolsCalls : Nat
  listPromptsCalls : Nat
  getPromptCalls : Nat
deriving Repr, DecidableEq

/-- No provider round trips. -/
def EffectCount.zero : EffectCount :=
  { connects := 0, listToolsCalls := 0, listPromptsCalls := 0, getPromptCalls := 0 }

/-- The method `ConnectionManager._discover_prompts`: raises when no session
exists; otherwise lists prompts and, on failure, logs a warning and
swallows the exception (both provider outcomes return normally). -/
def discover_prompts (eff : ProviderEffects) (st : ConnState) : Except String Unit :=
  if st.session = false then Except.error "Session not initialized"
  else
    match eff.listPrompts with
    | .ok _ => Except.ok ()
    | .error _ => Except.ok ()

/-- The method `ConnectionManager._discover_tools`: raises when no session
exists; otherwise lists tools and caches them, re-raising on failure. -/
def discover_tools (eff : ProviderEffects) (st : ConnState) : Except String ConnState :=
  if st.session = false then Except.error "Session not initialized"
  else
    match eff.listTools with
    | .ok tools => Except.ok { st with tools := tools }
    | .error e => Except.error e

/-- The method `ConnectionManager.initialize`: a no-op (with a warning) when
already initialized; otherwise connect, create the session, discover tools,
discover prompts (best effort), and mark initialized. Returns the resulting
state (or the propagated exception) together with the provider round trips
performed. -/
def cm_init (eff : ProviderEffects) (st : ConnState) : Except String ConnState × EffectCount :=
  if st.is_initialized then (Except.ok st, EffectCount.zero)
  else
    match eff.connect with
    | .error e => (Except.error e, { EffectCount.zero with connects := 1 })
    | .ok _ =>
      let st1 : ConnState := { st with session := true, stackOpen := true }
      match discover_tools eff st1 with
      | .error e => (Except.error e, { EffectCount.zero with connects := 1, listToolsCalls := 1 })
      | .ok st2 =>
        match discover_prompts eff st2 with
        | .error e =>
          (Except.error e,
           { connects := 1, listToolsCalls := 1, listPromptsCalls := 1, getPromptCalls := 0 })
        | .ok _ =>
          (Except.ok { st2 with is_initialized := true },
           { connects := 1, listToolsCalls := 1, listPromptsCalls := 1, getPromptCalls := 0 })

/-- The method `ConnectionManager.get_tools`: raises unless the
`_initialized` flag is set; otherwise returns the cached catalog. -/
def get_tools (st : ConnState) : Except String (List McpTool) :=
  if st.is_initialized = false then
    Except.error "ConnectionManager not initialized. Call initialize() first."
  else Except.ok st.tools

/-- The method `ConnectionManager.call_tool`: raises unless a session
object exists; otherwise forwards the call to the provider
(`session.call_tool`), re-raising any provider error. The second component
records whether a provider round trip occurred. -/
def call_tool (eff : ProviderEffects) (st : ConnState) (toolName : String) (args : Args) :
    Except String ToolResult × Bool :=
  if st.session = false then (Except.error "Session not initialized", false)
  else (eff.invokeTool toolName args, true)

/-- The method `ConnectionManager.get_prompt`: raises unless a session
object exists; otherwise fetches the prompt from the provider, re-raising
any provider error. The second component records whether a provider round
trip occurred. -/
def get_prompt (eff : ProviderEffects) (st : ConnState) (promptName : String) :
    Except String String × Bool :=
  if st.session = false then (Except.error "Session not initialized", false)
  else (eff.getPrompt promptName, true)

/-- The method `ConnectionManager.cleanup`: close the exit stack and clear
the `_initialized` flag. The `self.session` attribute is left as it was. -/
def cleanup (st : ConnState) : ConnState :=
  { st with stackOpen := false, is_initialized := false }

/-- The configured name of the system-instructions prompt
(`settings.system_prompt_name` in `config.py`). -/
def system_prompt_name : String := "scope_github_analytics_prompt"

/-- The mutable state of an `MCPHost`: its connection manager, the fetched
system prompt, and the adapted tool catalog. -/
structure HostState where
  conn : ConnState
  system_prompt : Option String
  tools_for_llm : List OpenAITool
deriving Repr, DecidableEq

/-- A freshly constructed `MCPHost` (its `__init__`). -/
def HostState.fresh : HostState :=
  { conn := ConnState.fresh, system_prompt := none, tools_for_llm := [] }

/-- The method `MCPHost.initialize`: initialize the connection manager,
fetch the system prompt by its configured name, and adapt the cached tool
catalog to OpenAI format. Any exception propagates. Returns the resulting
host state (or the propagated exception) together with the provider round
trips performed. -/
def mcphost_init (eff : ProviderEffects) (st : HostState) :
    Except String HostState × EffectCount :=
  match cm_init eff st.conn with
  | (.error e, c) => (Except.error e, c)
  | (.ok conn1, c) =>
    match get_prompt eff conn1 system_prompt_name with
    | (.error e, contacted) =>
      (Except.error e,
       { c with getPromptCalls := c.getPromptCalls + (if contacted then 1 else 0) })
    | (.ok text, contacted) =>
      let c1 : EffectCount :=
        { c with getPromptCalls := c.getPromptCalls + (if contacted then 1 else 0) }
      match get_tools conn1 with
      | .error e => (Except.error e, c1)
      | .ok tools =>
        (Except.ok
          { conn := conn1
            system_prompt := some text
            tools_for_llm := tools.map convert_tool },
         c1)

/-!
Concrete instances used by witnesses and counterexamples.
-/

/-- A sample structured tool result with one textual content item. -/
def exResult : ToolResult :=
  { content := some [{ text := some "230000 stars" }]
    toStr := "meta=None content=TextContent" }

/-- A sample tool provider on which every operation succeeds. -/
def exEnv : ToolEnv :=
  { decodeArgs := fun _ => Except.ok [("owner", "facebook"), ("repo", "react")]
    callTool := fun _ _ => Except.ok exResult }

/-- A sample tool provider whose invocation always raises. -/
def exEnvBadCall : ToolEnv :=
  { decodeArgs := fun _ => Except.ok []
    callTool := fun _ _ => Except.error "boom" }

/-- A sample tool call request. -/
def exCall : ToolCall :=
  { id := "call_1", name := "repo_get_repo_info"
    arguments := "\x7b\"owner\": \"facebook\", \"repo\": \"react\"\x7d" }

/-- An engine disposition: one tool-call turn, then a final turn. -/
def exEngineOnce : Nat → AssistantTurn := fun i =>
  if i = 0 then { content := none, tool_calls := [exCall] }
  else { content := some "done", tool_calls := [] }

/-- An engine disposition that requests a tool call on every turn. -/
def exEngineLoop : Nat → AssistantTurn := fun _ =>
  { content := none, tool_calls := [exCall] }

/-- An engine disposition whose first turn is final with null content. -/
def exEngineNone : Nat → AssistantTurn := fun _ =>
  { content := none, tool_calls := [] }

/-- A sample cached tool descriptor. -/
def exTool : McpTool :=
  { name := "repo_get_repo_info"
    description := "Get repository information"
    inputSchema := "object" }

/-- A sample provider on which every session operation succeeds. -/
def exEff : ProviderEffects :=
  { connect := Except.ok ()
    listTools := Except.ok [exTool]
    listPrompts := Except.ok ["scope_github_analytics_prompt"]
    getPrompt := fun _ => Except.ok "You are a GitHub analytics assistant"
    invokeTool := fun _ _ => Except.ok exResult }

/-- A provider on which listing prompts raises but all else succeeds. -/
def exEffNoPrompts : ProviderEffects :=
  { exEff with listPrompts := Except.error "prompts not supported" }

/-- A provider on which fetching the system prompt raises. -/
def exEffNoSysPrompt : ProviderEffects :=
  { exEff with getPrompt := fun _ => Except.error "Unknown prompt" }

/-- A structured tool result whose first content item is non-textual. -/
def exResultMixed : ToolResult :=
  { content := some [{ text := none }, { text := some "hello" }]
    toStr := "whole result" }

/-- The connection state after a successful `cm_init` against `exEff`. -/
def exConn1 : ConnState :=
  { session := true, tools := [exTool], is_initialized := true, stackOpen := true }

/-- The host state after a successful `mcphost_init` against `exEff`. -/
def exHs1 : HostState :=
  { conn := exConn1
    system_prompt := some "You are a GitHub analytics assistant"
    tools_for_llm := [convert_tool exTool] }

/-!
Helper lemmas about the tool-dispatch loop and the agentic loop.
-/

theorem runToolCalls_ok (env : ToolEnv) :
    ∀ (calls : List ToolCall) (msgs : List Message) (dispatched : List ToolCall),
    (∀ tc ∈ calls, (toolResultText env tc).isSome) →
    runToolCalls env calls msgs dispatched =
      (msgs ++ calls.filterMap (toolResultMsg env), dispatched ++ calls, none) := by
  intro calls
  induction calls with
  | nil => intro msgs dispatched _; simp [runToolCalls]
  | cons tc rest ih =>
    intro msgs dispatched h
    have htc : (toolResultText env tc).isSome := h tc (List.mem_cons_self tc rest)
    simp only [runToolCalls]
    cases hd : env.decodeArgs tc.arguments with
    | error e => simp [toolResultText, hd] at htc
    | ok args =>
      dsimp only
      cases hc : env.callTool tc.name args with
      | error e => simp [toolResultText, hd, hc] at htc
      | ok r =>
        dsimp only
        rw [ih (msgs ++ [Message.tool tc.id (extract_result_text r)]) (dispatched ++ [tc])
          (fun x hx => h x (List.mem_cons_of_mem tc hx))]
        simp [toolResultMsg, toolResultText, hd, hc]

theorem filterMap_toolResultMsg (env : ToolEnv) :
    ∀ (calls : List ToolCall), (∀ tc ∈ calls, (toolResultText env tc).isSome) →
    calls.filterMap (toolResultMsg env) =
      calls.map (fun tc => Message.tool tc.id ((toolResultText env tc).getD "")) := by
  intro calls
  induction calls with
  | nil => intro _; rfl
  | cons tc rest ih =>
    intro h
    have htc : (toolResultText env tc).isSome := h tc (List.mem_cons_self tc rest)
    obtain ⟨t, ht⟩ := Option.isSome_iff_exists.mp htc
    simp [List.filterMap_cons, toolResultMsg, ht,
      ih (fun x hx => h x (List.mem_cons_of_mem tc hx))]

theorem runToolCalls_decode_fail (env : ToolEnv) (bad : ToolCall) (e : String)
    (hbad : env.decodeArgs bad.arguments = Except.error e) :
    ∀ (pre : List ToolCall) (post : List ToolCall) (msgs : List Message)
      (dispatched : List ToolCall),
    (∀ tc ∈ pre, (toolResultText env tc).isSome) →
    runToolCalls env (pre ++ bad :: post) msgs dispatched =
      (msgs ++ pre.filterMap (toolResultMsg env), dispatched ++ pre, some e) := by
  intro pre
  induction pre with
  | nil => intro post msgs dispatched _; simp [runToolCalls, hbad]
  | cons tc rest ih =>
    intro post msgs dispatched h
    have htc : (toolResultText env tc).isSome := h tc (List.mem_cons_self tc rest)
    simp only [List.cons_append, runToolCalls]
    cases hd : env.decodeArgs tc.arguments with
    | error e2 => simp [toolResultText, hd] at htc
    | ok args =>
      dsimp only
      cases hc : env.callTool tc.name args with
      | error e2 => simp [toolResultText, hd, hc] at htc
      | ok r =>
        dsimp only
        simp only [List.append_eq]
        rw [ih post (msgs ++ [Message.tool tc.id (extract_result_text r)]) (dispatched ++ [tc])
          (fun x hx => h x (List.mem_cons_of_mem tc hx))]
        simp [toolResultMsg, toolResultText, hd, hc]

theorem runToolCalls_invoke_fail (env : ToolEnv) (bad : ToolCall) (args : Args) (e : String)
    (hargs : env.decodeArgs bad.arguments = Except.ok args)
    (hbad : env.callTool bad.name args = Except.error e) :
    ∀ (pre : List ToolCall) (post : List ToolCall) (msgs : List Message)
      (dispatched : List ToolCall),
    (∀ tc ∈ pre, (toolResultText env tc).isSome) →
    runToolCalls env (pre ++ bad :: post) msgs dispatched =
      (msgs ++ pre.filterMap (toolResultMsg env), (dispatched ++ pre) ++ [bad], some e) := by
  intro pre
  induction pre with
  | nil => intro post msgs dispatched _; simp [runToolCalls, hargs, hbad]
  | cons tc rest ih =>
    intro post msgs dispatched h
    have htc : (toolResultText env tc).isSome := h tc (List.mem_cons_self tc rest)
    simp only [List.cons_append, runToolCalls]
    cases hd : env.decodeArgs tc.arguments with
    | error e2 => simp [toolResultText, hd] at htc
    | ok args2 =>
      dsimp only
      cases hc : env.callTool tc.name args2 with
      | error e2 => simp [toolResultText, hd, hc] at htc
      | ok r =>
        dsimp only
        simp only [List.append_eq]
        rw [ih post (msgs ++ [Message.tool tc.id (extract_result_text r)]) (dispatched ++ [tc])
          (fun x hx => h x (List.mem_cons_of_mem tc hx))]
        simp [toolResultMsg, toolResultText, hd, hc]

theorem loopAux_final (engine : Nat → AssistantTurn) (env : ToolEnv) (fuel : Nat)
    (st : RunState) (h : (engine st.engineCalls).tool_calls = []) :
    loopAux engine env (fuel + 1) st =
      (RunOutcome.returned (engine st.engineCalls).content,
       { st with
         messages := st.messages ++
           [Message.assistant (engine st.engineCalls).content (engine st.engineCalls).tool_calls]
         engineCalls := st.engineCalls + 1 }) := by
  simp [loopAux, h]

theorem loopAux_toolstep (engine : Nat → AssistantTurn) (env : ToolEnv) (fuel : Nat)
    (st : RunState) (hne : (engine st.engineCalls).tool_calls ≠ [])
    (hok : ∀ tc ∈ (engine st.engineCalls).tool_calls, (toolResultText env tc).isSome) :
    loopAux engine env (fuel + 1) st =
      loopAux engine env fuel
        { messages := st.messages ++ roundMsgs env (engine st.engineCalls)
          engineCalls := st.engineCalls + 1
          dispatched := st.dispatched ++ (engine st.engineCalls).tool_calls } := by
  simp only [loopAux]
  rw [if_neg hne]
  rw [runToolCalls_ok env _ _ _ hok]
  simp [roundMsgs]

theorem loopAux_run (engine : Nat → AssistantTurn) (env : ToolEnv) :
    ∀ (N fuel : Nat) (st : RunState), N ≤ fuel →
    (∀ i, i < N → (engine (st.engineCalls + i)).tool_calls ≠ [] ∧
      ∀ tc ∈ (engine (st.engineCalls + i)).tool_calls, (toolResultText env tc).isSome) →
    loopAux engine env fuel st =
      loopAux engine env (fuel - N)
        { messages := st.messages ++ roundsFrom engine env st.engineCalls N
          engineCalls := st.engineCalls + N
          dispatched := st.dispatched ++ callsFrom engine st.engineCalls N } := by
  intro N
  induction N with
  | zero => intro fuel st _ _; simp [roundsFrom, callsFrom]
  | succ n ih =>
    intro fuel st hle h
    obtain ⟨f, rfl⟩ : ∃ f, fuel = f + 1 := ⟨fuel - 1, by omega⟩
    have h0 := h 0 (Nat.succ_pos n)
    rw [loopAux_toolstep engine env f st (by simpa using h0.1) (by simpa using h0.2)]
    rw [ih f _ (by omega)
      (by
        intro i hi
        have hstep := h (i + 1) (by omega)
        constructor
        · simpa [Nat.add_assoc, Nat.add_comm 1 i] using hstep.1
        · simpa [Nat.add_assoc, Nat.add_comm 1 i] using hstep.2)]
    have hfuel : f + 1 - (n + 1) = f - n := by omega
    rw [hfuel]
    simp [roundsFrom, callsFrom, Nat.add_assoc, Nat.add_comm 1 n]

theorem firstText_append_none (pre : List ContentItem) (hpre : ∀ p ∈ pre, p.text = none) :
    ∀ rest, firstText (pre ++ rest) = firstText rest := by
  induction pre with
  | nil => intro rest; rfl
  | cons p ps ih =>
    intro rest
    have hp : p.text = none := hpre p (List.mem_cons_self p ps)
    simp only [List.cons_append, firstText, hp]
    exact ih (fun x hx => hpre x (List.mem_cons_of_mem p hx)) rest

theorem firstText_all_none (items : List ContentItem) (h : ∀ i ∈ items, i.text = none) :
    firstText items = none := by
  induction items with
  | nil => rfl
  | cons p ps ih =>
    have hp : p.text = none := h p (List.mem_cons_self p ps)
    simp only [firstText, hp]
    exact ih (fun x hx => h x (List.mem_cons_of_mem p hx))

theorem loopAux_failstep (engine : Nat → AssistantTurn) (env : ToolEnv) (fuel : Nat)
    (st : RunState) (pre post : List ToolCall) (bad : ToolCall)
    (hsplit : (engine st.engineCalls).tool_calls = pre ++ bad :: post)
    (hpre : ∀ tc ∈ pre, (toolResultText env tc).isSome)
    (hbad : toolResultText env bad = none) :
    ∃ e msgsE dispE,
      loopAux engine env (fuel + 1) st =
        (RunOutcome.raised e,
         { messages := msgsE, engineCalls := st.engineCalls + 1, dispatched := dispE }) ∧
      (dispE = st.dispatched ++ pre ∨ dispE = st.dispatched ++ (pre ++ [bad])) := by
  have hne : (engine st.engineCalls).tool_calls ≠ [] := by simp [hsplit]
  simp only [loopAux]
  rw [if_neg hne]
  rw [hsplit]
  cases hdb : env.decodeArgs bad.arguments with
  | error e =>
    rw [runToolCalls_decode_fail env bad e hdb pre post _ _ hpre]
    dsimp only
    exact ⟨e, _, _, rfl, Or.inl rfl⟩
  | ok args =>
    simp only [toolResultText, hdb] at hbad
    cases hcb : env.callTool bad.name args with
    | ok r2 => simp [hcb] at hbad
    | error e =>
      rw [runToolCalls_invoke_fail env bad args e hdb hcb pre post _ _ hpre]
      dsimp only
      exact ⟨e, _, _, rfl, Or.inr (by simp)⟩

/-!
The claims.
-/

/-- Claim C1, amended form: if the Completion Engine produces N assistant
turns carrying tool calls (with N strictly below maxIterations, rather than
the claimed N ≤ maxIterations) followed by an assistant turn with no tool
calls, and every requested tool call decodes and executes successfully,
then `process_query` terminates successfully after exactly N + 1 engine
calls, returns the content of the final turn, and its transcript is, in
order: the system message, the user message, then for each round the
assistant-with-calls message followed by its tool-result messages, then the
final assistant message. -/
theorem processQuery_success_run (engine : Nat → AssistantTurn) (env : ToolEnv)
    (maxIterations N : Nat) (sp : Option String) (q : String)
    (hN : N < maxIterations)
    (hrounds : ∀ i, i < N → (engine i).tool_calls ≠ [] ∧
      ∀ tc ∈ (engine i).tool_calls, (toolResultText env tc).isSome)
    (hfinal : (engine N).tool_calls = []) :
    process_query engine env maxIterations sp q =
      (RunOutcome.returned (engine N).content,
       { messages := [Message.system sp, Message.user q] ++ roundsFrom engine env 0 N ++
           [Message.assistant (engine N).content (engine N).tool_calls]
         engineCalls := N + 1
         dispatched := callsFrom engine 0 N }) := by
  unfold process_query
  rw [loopAux_run engine env N maxIterations _ (le_of_lt hN)
      (by intro i hi; simpa using hrounds i hi)]
  obtain ⟨k, hk⟩ : ∃ k, maxIterations - N = k + 1 := ⟨maxIterations - N - 1, by omega⟩
  rw [hk]
  rw [loopAux_final engine env k _ (by simpa using hfinal)]
  simp [hfinal]

/-- Claim C1, counterexample to the claim as stated: with maxIterations = 1
and an engine disposition of N = 1 tool-call turn followed by a final turn
(so N ≤ maxIterations), `process_query` performs only 1 engine call and
returns the fallback message — not N + 1 = 2 calls returning the final
turn's content. -/
theorem processQuery_boundary_counterexample :
    (process_query exEngineOnce exEnv 1 (some "SYS") "Q").1 =
      RunOutcome.returned (some fallbackMessage) ∧
    (process_query exEngineOnce exEnv 1 (some "SYS") "Q").2.engineCalls = 1 ∧
    ¬ ((process_query exEngineOnce exEnv 1 (some "SYS") "Q").1 =
        RunOutcome.returned (exEngineOnce 1).content ∧
       (process_query exEngineOnce exEnv 1 (some "SYS") "Q").2.engineCalls = 1 + 1) := by
  refine ⟨rfl, rfl, ?_⟩
  rintro ⟨h1, h2⟩
  exact absurd h2 (by decide)

/-- Witness for claim C1: a concrete run with one successful tool-call
round and maxIterations = 2. -/
theorem processQuery_success_run_witness :
    process_query exEngineOnce exEnv 2 (some "SYS") "Q" =
      (RunOutcome.returned (some "done"),
       { messages := [Message.system (some "SYS"), Message.user "Q"] ++
           roundsFrom exEngineOnce exEnv 0 1 ++
           [Message.assistant (some "done") []]
         engineCalls := 2
         dispatched := callsFrom exEngineOnce 0 1 }) := by
  exact processQuery_success_run exEngineOnce exEnv 2 1 (some "SYS") "Q" (by omega)
    (by decide) rfl

/-- Claim C2: if the Completion Engine requests tool calls on every
iteration (and those calls all succeed), `process_query` performs exactly
maxIterations engine calls — never maxIterations + 1 — and returns the
fixed fallback message as a normal returned value, not by raising. -/
theorem processQuery_exhaustion (engine : Nat → AssistantTurn) (env : ToolEnv)
    (maxIterations : Nat) (sp : Option String) (q : String)
    (h : ∀ i, i < maxIterations → (engine i).tool_calls ≠ [] ∧
      ∀ tc ∈ (engine i).tool_calls, (toolResultText env tc).isSome) :
    process_query engine env maxIterations sp q =
      (RunOutcome.returned (some fallbackMessage),
       { messages := [Message.system sp, Message.user q] ++
           roundsFrom engine env 0 maxIterations
         engineCalls := maxIterations
         dispatched := callsFrom engine 0 maxIterations }) := by
  unfold process_query
  rw [loopAux_run engine env maxIterations maxIterations _ le_rfl
      (by intro i hi; simpa using h i hi)]
  simp [loopAux, Nat.sub_self]

/-- Witness for claim C2: maxIterations = 2 against an engine that always
requests a tool call. -/
theorem processQuery_exhaustion_witness :
    process_query exEngineLoop exEnv 2 (some "SYS") "Q" =
      (RunOutcome.returned (some fallbackMessage),
       { messages := [Message.system (some "SYS"), Message.user "Q"] ++
           roundsFrom exEngineLoop exEnv 0 2
         engineCalls := 2
         dispatched := callsFrom exEngineLoop 0 2 }) := by
  exact processQuery_exhaustion exEngineLoop exEnv 2 (some "SYS") "Q" (by decide)

/-- Claim C3: an assistant turn carrying k tool calls (all of which decode
and execute successfully) appends, before the next engine call, exactly k
tool-result messages — one per request, in request order, each carrying the
`tool_call_id` of exactly the request it answers. -/
theorem toolRound_appends_correlated_results (engine : Nat → AssistantTurn) (env : ToolEnv)
    (fuel : Nat) (st : RunState)
    (hne : (engine st.engineCalls).tool_calls ≠ [])
    (hok : ∀ tc ∈ (engine st.engineCalls).tool_calls, (toolResultText env tc).isSome) :
    loopAux engine env (fuel + 1) st =
      loopAux engine env fuel
        { messages := (st.messages ++
            [Message.assistant (engine st.engineCalls).content
              (engine st.engineCalls).tool_calls]) ++
            (engine st.engineCalls).tool_calls.map
              (fun tc => Message.tool tc.id ((toolResultText env tc).getD ""))
          engineCalls := st.engineCalls + 1
          dispatched := st.dispatched ++ (engine st.engineCalls).tool_calls } := by
  rw [loopAux_toolstep engine env fuel st hne hok]
  simp [roundMsgs, filterMap_toolResultMsg env (engine st.engineCalls).tool_calls hok]

/-- Witness for claim C3: a concrete turn with one tool call appends the
one correlated tool-result message. -/
theorem toolRound_appends_correlated_results_witness :
    loopAux exEngineLoop exEnv 1
      { messages := [Message.system (some "SYS"), Message.user "Q"]
        engineCalls := 0
        dispatched := [] } =
      loopAux exEngineLoop exEnv 0
        { messages := ([Message.system (some "SYS"), Message.user "Q"] ++
            [Message.assistant none [exCall]]) ++
            [exCall].map (fun tc => Message.tool tc.id ((toolResultText exEnv tc).getD ""))
          engineCalls := 1
          dispatched := [exCall] } := by
  exact toolRound_appends_correlated_results exEngineLoop exEnv 0
    { messages := [Message.system (some "SYS"), Message.user "Q"]
      engineCalls := 0
      dispatched := [] } (by decide) (by decide)

/-- Claim C5: a failure raised while decoding a tool call's argument
payload, or while invoking a tool, is not caught inside `process_query`: the
run ends with that exception propagating, after no further engine calls
(exactly r + 1 were made when round r failed) and with no tool dispatched
beyond the calls preceding the failing one (plus the failing one itself
when the provider was reached). -/
theorem toolFailure_propagates (engine : Nat → AssistantTurn) (env : ToolEnv)
    (maxIterations r : Nat) (sp : Option String) (q : String)
    (pre post : List ToolCall) (bad : ToolCall)
    (hr : r < maxIterations)
    (hrounds : ∀ i, i < r → (engine i).tool_calls ≠ [] ∧
      ∀ tc ∈ (engine i).tool_calls, (toolResultText env tc).isSome)
    (hsplit : (engine r).tool_calls = pre ++ bad :: post)
    (hpre : ∀ tc ∈ pre, (toolResultText env tc).isSome)
    (hbad : toolResultText env bad = none) :
    ∃ e, (process_query engine env maxIterations sp q).1 = RunOutcome.raised e ∧
      (process_query engine env maxIterations sp q).2.engineCalls = r + 1 ∧
      ((process_query engine env maxIterations sp q).2.dispatched =
          callsFrom engine 0 r ++ pre ∨
        (process_query engine env maxIterations sp q).2.dispatched =
          callsFrom engine 0 r ++ (pre ++ [bad])) := by
  unfold process_query
  rw [loopAux_run engine env r maxIterations _ (le_of_lt hr)
      (by intro i hi; simpa using hrounds i hi)]
  obtain ⟨k, hk⟩ : ∃ k, maxIterations - r = k + 1 := ⟨maxIterations - r - 1, by omega⟩
  rw [hk]
  dsimp only
  simp only [Nat.zero_add, List.nil_append]
  obtain ⟨e, msgsE, dispE, heq, hdisp⟩ :=
    loopAux_failstep engine env k
      { messages := [Message.system sp, Message.user q] ++ roundsFrom engine env 0 r
        engineCalls := r
        dispatched := callsFrom engine 0 r } pre post bad hsplit hpre hbad
  rw [heq]
  refine ⟨e, rfl, rfl, ?_⟩
  rcases hdisp with h | h
  · exact Or.inl (by simpa using h)
  · exact Or.inr (by simpa using h)

/-- Witness for claim C5: a provider whose invocation raises aborts the run
after one engine call, with only the failing call dispatched. -/
theorem toolFailure_propagates_witness :
    (process_query exEngineLoop exEnvBadCall 3 (some "SYS") "Q").1 =
      RunOutcome.raised "boom" ∧
    (process_query exEngineLoop exEnvBadCall 3 (some "SYS") "Q").2.engineCalls = 0 + 1 ∧
    (process_query exEngineLoop exEnvBadCall 3 (some "SYS") "Q").2.dispatched = [exCall] := by
  obtain ⟨e, h1, h2, h3⟩ := toolFailure_propagates exEngineLoop exEnvBadCall 3 0
    (some "SYS") "Q" [] [] exCall (by omega)
    (fun i hi => absurd hi (Nat.not_lt_zero i)) rfl
    (fun tc htc => absurd htc (List.not_mem_nil tc)) rfl
  exact ⟨by rfl, h2, by rfl⟩

/-- Claim C4, counterexample to the claim as stated: invoking `call_tool`
with a name absent from the cached catalog does not fail and does contact
the provider — the code performs no catalog membership check. -/
theorem callTool_unknown_name_counterexample :
    "nonexistent_tool" ∉ exConn1.tools.map McpTool.name ∧
    call_tool exEff exConn1 "nonexistent_tool" [] = (Except.ok exResult, true) := by
  exact ⟨by decide, rfl⟩

/-- Claim C4, amended form: `call_tool` performs no catalog check: for a
name absent from the cached catalog, as for any name, when a session exists
the call is forwarded to the provider (a provider round trip occurs) and
whatever the provider returns — result or raised error — is the outcome. -/
theorem callTool_no_catalog_check (eff : ProviderEffects) (st : ConnState)
    (toolName : String) (args : Args)
    (_habsent : toolName ∉ st.tools.map McpTool.name)
    (hsess : st.session = true) :
    call_tool eff st toolName args = (eff.invokeTool toolName args, true) := by
  simp [call_tool, hsess]

/-- Witness for claim C4: a concrete unknown name is forwarded to the
provider. -/
theorem callTool_no_catalog_check_witness :
    "another_unknown_tool" ∉ exConn1.tools.map McpTool.name ∧
    call_tool exEff exConn1 "another_unknown_tool" [] =
      (exEff.invokeTool "another_unknown_tool" [], true) := by
  exact ⟨by decide,
    callTool_no_catalog_check exEff exConn1 "another_unknown_tool" [] (by decide) rfl⟩

/-- Claim C6: during session initialization, a failure while discovering
prompts is absorbed and `mcphost_init` still succeeds, whereas a failure
while fetching the named system-instructions prompt propagates and aborts
`mcphost_init`. -/
theorem mcphostInit_prompt_failure_semantics (eff : ProviderEffects) (st : HostState)
    (hini : st.conn.is_initialized = false)
    (hconn : eff.connect = Except.ok ())
    (ts : List McpTool) (htools : eff.listTools = Except.ok ts) :
    (∀ ep t, eff.listPrompts = Except.error ep →
      eff.getPrompt system_prompt_name = Except.ok t →
      (mcphost_init eff st).1 = Except.ok
        { conn :=
            { st.conn with
                session := true
                stackOpen := true
                tools := ts
                is_initialized := true }
          system_prompt := some t
          tools_for_llm := ts.map convert_tool })
    ∧ (∀ e, eff.getPrompt system_prompt_name = Except.error e →
      (mcphost_init eff st).1 = Except.error e) := by
  constructor
  · intro ep t hp hg
    simp [mcphost_init, cm_init, hini, hconn, discover_tools, discover_prompts, htools, hp,
      get_prompt, hg, get_tools]
  · intro e hg
    cases hlp : eff.listPrompts with
    | ok ps =>
      simp [mcphost_init, cm_init, hini, hconn, discover_tools, discover_prompts, htools, hlp,
        get_prompt, hg]
    | error ep =>
      simp [mcphost_init, cm_init, hini, hconn, discover_tools, discover_prompts, htools, hlp,
        get_prompt, hg]

/-- Witness for claim C6: a provider whose prompt listing raises still
initializes; a provider whose system-prompt fetch raises aborts with that
error. -/
theorem mcphostInit_prompt_failure_semantics_witness :
    (mcphost_init exEffNoPrompts HostState.fresh).1 = Except.ok
      { conn :=
          { ConnState.fresh with
              session := true
              stackOpen := true
              tools := [exTool]
              is_initialized := true }
        system_prompt := some "You are a GitHub analytics assistant"
        tools_for_llm := [exTool].map convert_tool } ∧
    (mcphost_init exEffNoSysPrompt HostState.fresh).1 = Except.error "Unknown prompt" := by
  constructor
  · exact (mcphostInit_prompt_failure_semantics exEffNoPrompts HostState.fresh rfl rfl
      [exTool] rfl).1 "prompts not supported" "You are a GitHub analytics assistant" rfl rfl
  · exact (mcphostInit_prompt_failure_semantics exEffNoSysPrompt HostState.fresh rfl rfl
      [exTool] rfl).2 "Unknown prompt" rfl

/-- Claim C7, counterexample to the claim as stated: calling host-level
initialization a second time on an already-initialized session is not a
no-op — it re-fetches the system prompt from the provider (one getPrompt
round trip, not zero). -/
theorem mcphostInit_second_call_counterexample :
    (mcphost_init exEff HostState.fresh).1 = Except.ok exHs1 ∧
    (mcphost_init exEff exHs1).2.getPromptCalls = 1 ∧
    ¬ (mcphost_init exEff exHs1).2.getPromptCalls = 0 := by
  exact ⟨rfl, rfl, by decide⟩

/-- Claim C7, amended form: a second host-level initialization call does
not reconnect, re-discover tools or re-list prompts (the connection-manager
guard makes those no-ops), but it does re-fetch the system-instructions
prompt (exactly one provider round trip) and re-adapts the cached catalog,
reassigning the session's prompt and catalog. -/
theorem mcphostInit_second_call (eff : ProviderEffects) (st : HostState)
    (hinit : st.conn.is_initialized = true) (hsess : st.conn.session = true) :
    (mcphost_init eff st).2.connects = 0 ∧
    (mcphost_init eff st).2.listToolsCalls = 0 ∧
    (mcphost_init eff st).2.listPromptsCalls = 0 ∧
    (mcphost_init eff st).2.getPromptCalls = 1 ∧
    ∀ t, eff.getPrompt system_prompt_name = Except.ok t →
      (mcphost_init eff st).1 = Except.ok
        { conn := st.conn
          system_prompt := some t
          tools_for_llm := st.conn.tools.map convert_tool } := by
  have hcm : cm_init eff st.conn = (Except.ok st.conn, EffectCount.zero) := by
    simp [cm_init, hinit]
  cases hg : eff.getPrompt system_prompt_name with
  | error e =>
    refine ⟨?_, ?_, ?_, ?_, ?_⟩ <;>
      simp [mcphost_init, hcm, get_prompt, hsess, hg, get_tools, hinit, EffectCount.zero]
  | ok t0 =>
    refine ⟨?_, ?_, ?_, ?_, ?_⟩ <;>
      simp [mcphost_init, hcm, get_prompt, hsess, hg, get_tools, hinit, EffectCount.zero]

/-- Witness for claim C7: a second initialization against a live provider
performs no reconnect but one prompt re-fetch, and reassigns the session
fields. -/
theorem mcphostInit_second_call_witness :
    (mcphost_init exEff exHs1).2.connects = 0 ∧
    (mcphost_init exEff exHs1).2.getPromptCalls = 1 ∧
    (mcphost_init exEff exHs1).1 = Except.ok
      { conn := exHs1.conn
        system_prompt := some "You are a GitHub analytics assistant"
        tools_for_llm := exHs1.conn.tools.map convert_tool } := by
  obtain ⟨h1, h2, h3, h4, h5⟩ := mcphostInit_second_call exEff exHs1 rfl rfl
  exact ⟨h1, h4, h5 "You are a GitHub analytics assistant" rfl⟩

/-- Claim C8: `extract_result_text` returns the text of the first content
item carrying a text field; when no content item carries one — empty
content, only non-textual items, or no content attribute at all — it
returns the string rendering of the whole result. It is a total function. -/
theorem extractResultText_spec (r : ToolResult) :
    (∀ pre item rest t, r.content = some (pre ++ item :: rest) →
      (∀ p ∈ pre, p.text = none) → item.text = some t →
      extract_result_text r = t) ∧
    (∀ items, r.content = some items → (∀ i ∈ items, i.text = none) →
      extract_result_text r = r.toStr) ∧
    (r.content = none → extract_result_text r = r.toStr) := by
  refine ⟨?_, ?_, ?_⟩
  · intro pre item rest t hc hpre ht
    have hfst : firstText (pre ++ item :: rest) = some t := by
      rw [firstText_append_none pre hpre (item :: rest)]
      simp [firstText, ht]
    simp [extract_result_text, hc, hfst]
  · intro items hc hnone
    have hfst : firstText items = none := firstText_all_none items hnone
    cases items with
    | nil => simp [extract_result_text, hc]
    | cons i is => simp [extract_result_text, hc, hfst]
  · intro hc
    simp [extract_result_text, hc]

/-- Witness for claim C8: the text of the first textual item is returned
past a non-textual item; a fully non-textual result and a content-free
result both fall back to the whole-result rendering. -/
theorem extractResultText_spec_witness :
    extract_result_text exResultMixed = "hello" ∧
    extract_result_text { content := some [{ text := none }], toStr := "whole result" } =
      "whole result" ∧
    extract_result_text { content := none, toStr := "whole result" } = "whole result" := by
  refine ⟨?_, ?_, ?_⟩
  · exact (extractResultText_spec exResultMixed).1 [{ text := none }] { text := some "hello" }
      [] "hello" rfl (by decide) rfl
  · exact (extractResultText_spec _).2.1 [{ text := none }] rfl (by decide)
  · exact (extractResultText_spec _).2.2 rfl

/-- Claim C9, counterexample to the claim as stated: after a successful
connect followed by close, `call_tool` does not fail with the
not-initialized guard — the session reference survives cleanup, so the call
is forwarded to the (closed) session. -/
theorem connection_after_close_counterexample :
    (cm_init exEff ConnState.fresh).1 = Except.ok exConn1 ∧
    (cleanup exConn1).is_initialized = false ∧
    call_tool exEff (cleanup exConn1) "repo_get_repo_info" [] = (Except.ok exResult, true) := by
  exact ⟨rfl, rfl, rfl⟩

/-- Claim C9, amended form: before connect, `get_tools`, `call_tool` and
`get_prompt` all fail with their not-initialized guard; after close,
`get_tools` still fails (the initialized flag is cleared) but `call_tool`
and `get_prompt` are not re-guarded — the session reference survives
cleanup and the call is forwarded to the provider. -/
theorem connection_state_guards (eff : ProviderEffects) (toolName promptName : String)
    (args : Args) (st : ConnState) :
    call_tool eff ConnState.fresh toolName args =
      (Except.error "Session not initialized", false) ∧
    get_prompt eff ConnState.fresh promptName =
      (Except.error "Session not initialized", false) ∧
    get_tools ConnState.fresh =
      Except.error "ConnectionManager not initialized. Call initialize() first." ∧
    (cleanup st).is_initialized = false ∧
    get_tools (cleanup st) =
      Except.error "ConnectionManager not initialized. Call initialize() first." ∧
    (st.session = true →
      call_tool eff (cleanup st) toolName args = (eff.invokeTool toolName args, true)) ∧
    (st.session = true →
      get_prompt eff (cleanup st) promptName = (eff.getPrompt promptName, true)) := by
  refine ⟨rfl, rfl, rfl, rfl, rfl, ?_, ?_⟩ <;>
    intro h <;> simp [call_tool, get_prompt, cleanup, h]

/-- Witness for claim C9: operations on a fresh manager are guarded; after
cleanup of a connected manager, `call_tool` reaches the provider. -/
theorem connection_state_guards_witness :
    call_tool exEff ConnState.fresh "repo_get_repo_info" [] =
      (Except.error "Session not initialized", false) ∧
    call_tool exEff (cleanup exConn1) "repo_get_repo_info" [] =
      (exEff.invokeTool "repo_get_repo_info" [], true) := by
  obtain ⟨h1, h2, h3, h4, h5, h6, h7⟩ :=
    connection_state_guards exEff "repo_get_repo_info" "some_prompt" [] exConn1
  exact ⟨h1, h6 rfl⟩

/-- Claim C10: when the Completion Engine's first turn carries no tool
calls, `process_query` returns that turn's content verbatim — in particular
a null content is returned as-is (no guard or conversion on the success
path) — with zero tool dispatches. -/
theorem firstTurn_content_returned (engine : Nat → AssistantTurn) (env : ToolEnv)
    (maxIterations : Nat) (sp : Option String) (q : String)
    (hpos : 0 < maxIterations) (hfinal : (engine 0).tool_calls = []) :
    (process_query engine env maxIterations sp q).1 =
      RunOutcome.returned (engine 0).content ∧
    (process_query engine env maxIterations sp q).2.dispatched = [] := by
  obtain ⟨k, hk⟩ : ∃ k, maxIterations = k + 1 := ⟨maxIterations - 1, by omega⟩
  subst hk
  unfold process_query
  rw [loopAux_final engine env k _ hfinal]
  exact ⟨rfl, rfl⟩

/-- Witness for claim C10: an engine whose first turn is final with null
content makes `process_query` return the null content, not a string. -/
theorem firstTurn_content_returned_witness :
    (process_query exEngineNone exEnv 5 (some "SYS") "Q").1 = RunOutcome.returned none ∧
    (process_query exEngineNone exEnv 5 (some "SYS") "Q").2.dispatched = [] := by
  exact firstTurn_content_returned exEngineNone exEnv 5 (some "SYS") "Q" (by omega) rfl

end GithubAnalyticsMcp
